import Mathlib

/-!
Verification of the salt-incus-formula repository: a shallow embedding of the
Incus execution module (`_modules/incus.py`) and state module
(`_states/incus.py`) together with proofs about the reconciliation engine,
the asynchronous-operation wait protocol, the configuration/device merge
semantics and the snapshot-rotation policy.

Python dictionaries are modelled as association lists (`Dict α`), with
first-occurrence lookup (`dget`), in-place overwrite (`dset`, which keeps the
position of an existing key, as CPython dicts do) and `dupdate` modelling
`dict.update`.  A genuine Python dict never has duplicate keys; theorems that
need this carry a `nodupKeys` hypothesis.  JSON config values are strings
(the Incus API's config maps are string-to-string), so the `str(value)`
coercion in the state module is the identity on the modelled values.
-/

namespace SaltIncus

/-- A Python dict with string keys, modelled as an association list. -/
abbrev Dict (α : Type) := List (String × α)

/-- `d.get(k)`: first-occurrence lookup. -/
def dget {α : Type} : Dict α → String → Option α
  | [], _ => none
  | (k', v) :: rest, k => if k' = k then some v else dget rest k

/-- The key list of a dict. -/
def dkeys {α : Type} (d : Dict α) : List String := d.map Prod.fst

/-- `d[k] = v`: overwrite the (first) binding of `k` in place, else append. -/
def dset {α : Type} : Dict α → String → α → Dict α
  | [], k, v => [(k, v)]
  | (k', v') :: rest, k, v =>
      if k' = k then (k, v) :: rest else (k', v') :: dset rest k v

/-- `c.update(d)`: Python dict update, folding `dset` over the entries of `d`. -/
def dupdate {α : Type} (c d : Dict α) : Dict α :=
  d.foldl (fun acc p => dset acc p.1 p.2) c

/-- A dict has no duplicate keys (always true of a real Python dict). -/
def nodupKeys {α : Type} (d : Dict α) : Prop := (dkeys d).Nodup

instance {α : Type} (d : Dict α) : Decidable (nodupKeys d) := by
  unfold nodupKeys; infer_instance

/-- Python `==` on dicts: extensional equality, computed entry-wise. -/
def dictEqb {α : Type} [BEq α] (a b : Dict α) : Bool :=
  (a.all fun p => dget b p.1 == some p.2) && (b.all fun p => dget a p.1 == some p.2)

/-- Python `current.get(name) == conf` where the left side may be `None`
(`None == dict` is `False`). -/
def optDictEqb {α : Type} [BEq α] (a : Option (Dict α)) (b : Dict α) : Bool :=
  match a with
  | none => false
  | some d => dictEqb d b

/-- Python `set(a) == set(b)` on string lists. -/
def setEq (a b : List String) : Bool :=
  (a.all fun x => b.contains x) && (b.all fun x => a.contains x)

/-! ### Lemmas about the dict model -/

theorem dget_dset_self {α : Type} (d : Dict α) (k : String) (v : α) :
    dget (dset d k v) k = some v := by
  induction d with
  | nil => simp [dset, dget]
  | cons p rest ih =>
      obtain ⟨k', v'⟩ := p
      by_cases h : k' = k
      · simp [dset, h, dget]
      · simp [dset, h, dget, ih]

theorem dget_dset_ne {α : Type} (d : Dict α) (k k' : String) (v : α)
    (h : k' ≠ k) : dget (dset d k v) k' = dget d k' := by
  have h' : k ≠ k' := Ne.symm h
  induction d with
  | nil => simp [dset, dget, h']
  | cons p rest ih =>
      obtain ⟨k0, v0⟩ := p
      by_cases h0 : k0 = k
      · subst h0
        simp [dset, dget, h']
      · simp [dset, dget, h0, ih]

/-- Unfolding `nodupKeys` over a cons cell. -/
theorem nodupKeys_cons {α : Type} {k0 : String} {v0 : α} {rest : Dict α} :
    nodupKeys ((k0, v0) :: rest) ↔ k0 ∉ dkeys rest ∧ nodupKeys rest := by
  simp [nodupKeys, dkeys]

theorem dget_eq_none_iff {α : Type} (d : Dict α) (k : String) :
    dget d k = none ↔ k ∉ dkeys d := by
  induction d with
  | nil => simp [dget, dkeys]
  | cons p rest ih =>
      obtain ⟨k0, v0⟩ := p
      by_cases h : k0 = k
      · subst h; simp [dget, dkeys]
      · have h' : k ≠ k0 := Ne.symm h
        simp [dget, dkeys, h, h', ih]

theorem dget_mem {α : Type} {d : Dict α} {k : String} {v : α}
    (h : dget d k = some v) : (k, v) ∈ d := by
  induction d with
  | nil => simp [dget] at h
  | cons p rest ih =>
      obtain ⟨k0, v0⟩ := p
      by_cases h0 : k0 = k
      · subst h0
        simp [dget] at h
        simp [h]
      · simp [dget, h0] at h
        exact List.mem_cons_of_mem _ (ih h)

theorem mem_dget_of_nodup {α : Type} {d : Dict α} {k : String} {v : α}
    (hn : nodupKeys d) (h : (k, v) ∈ d) : dget d k = some v := by
  induction d with
  | nil => simp at h
  | cons p rest ih =>
      obtain ⟨k0, v0⟩ := p
      obtain ⟨hk0, hn'⟩ := nodupKeys_cons.mp hn
      rcases List.mem_cons.mp h with h1 | h1
      · cases h1
        simp [dget]
      · have hkmem : k ∈ dkeys rest := List.mem_map.mpr ⟨(k, v), h1, rfl⟩
        have h0 : k0 ≠ k := fun hh => hk0 (hh ▸ hkmem)
        simp [dget, h0, ih hn' h1]

theorem dget_dupdate_not_mem {α : Type} (c : Dict α) {u : Dict α} {k : String}
    (h : k ∉ dkeys u) : dget (dupdate c u) k = dget c k := by
  induction u generalizing c with
  | nil => simp [dupdate]
  | cons p rest ih =>
      obtain ⟨k0, v0⟩ := p
      have hne : k0 ≠ k := by
        intro hk; exact h (by simp [dkeys, hk])
      have hrest : k ∉ dkeys rest := by
        intro hk; exact h (by simp [dkeys] at hk ⊢; right; exact hk)
      show dget (dupdate (dset c k0 v0) rest) k = dget c k
      rw [ih (dset c k0 v0) hrest, dget_dset_ne _ _ _ _ (fun hk => hne hk.symm)]

theorem dget_dupdate_mem {α : Type} (c : Dict α) {u : Dict α} {k : String}
    {v : α} (hn : nodupKeys u) (h : dget u k = some v) :
    dget (dupdate c u) k = some v := by
  induction u generalizing c with
  | nil => simp [dget] at h
  | cons p rest ih =>
      obtain ⟨k0, v0⟩ := p
      obtain ⟨hk0, hn'⟩ := nodupKeys_cons.mp hn
      show dget (dupdate (dset c k0 v0) rest) k = some v
      by_cases h0 : k0 = k
      · subst h0
        simp [dget] at h
        subst h
        rw [dget_dupdate_not_mem _ hk0]
        exact dget_dset_self c k0 v0
      · simp [dget, h0] at h
        exact ih (dset c k0 v0) hn' h

theorem dget_dupdate_none {α : Type} (c : Dict α) {u : Dict α} {k : String}
    (h : dget u k = none) : dget (dupdate c u) k = dget c k :=
  dget_dupdate_not_mem c ((dget_eq_none_iff u k).mp h)

theorem mem_dkeys_dset {α : Type} (d : Dict α) (k k' : String) (v : α) :
    k' ∈ dkeys (dset d k v) ↔ k' ∈ dkeys d ∨ k' = k := by
  induction d with
  | nil => simp [dset, dkeys]
  | cons p rest ih =>
      obtain ⟨k0, v0⟩ := p
      by_cases h : k0 = k
      · subst h
        simp [dset, dkeys]
        tauto
      · simp [dset, dkeys, h] at ih ⊢
        tauto

theorem nodupKeys_dset {α : Type} {d : Dict α} (hn : nodupKeys d)
    (k : String) (v : α) : nodupKeys (dset d k v) := by
  induction d with
  | nil => simp [dset, nodupKeys, dkeys]
  | cons p rest ih =>
      obtain ⟨k0, v0⟩ := p
      obtain ⟨hk0, hn'⟩ := nodupKeys_cons.mp hn
      by_cases h : k0 = k
      · subst h
        rw [show dset ((k0, v0) :: rest) k0 v = (k0, v) :: rest by simp [dset]]
        exact nodupKeys_cons.mpr ⟨hk0, hn'⟩
      · rw [show dset ((k0, v0) :: rest) k v = (k0, v0) :: dset rest k v by
          simp [dset, h]]
        refine nodupKeys_cons.mpr ⟨?_, ih hn'⟩
        intro hmem
        rcases (mem_dkeys_dset rest k k0 v).mp hmem with h1 | h1
        · exact hk0 h1
        · exact h h1

theorem nodupKeys_dupdate {α : Type} {c : Dict α} (hn : nodupKeys c)
    (u : Dict α) : nodupKeys (dupdate c u) := by
  induction u generalizing c with
  | nil => exact hn
  | cons p rest ih =>
      obtain ⟨k0, v0⟩ := p
      exact ih (nodupKeys_dset hn k0 v0)

theorem dictEqb_ext {a b : Dict String} (h : dictEqb a b = true) (k : String) :
    dget a k = dget b k := by
  unfold dictEqb at h
  rw [Bool.and_eq_true] at h
  obtain ⟨ha, hb⟩ := h
  rw [List.all_eq_true] at ha hb
  cases hga : dget a k with
  | some v =>
      have h2 := ha _ (dget_mem hga)
      simp at h2
      rw [h2]
  | none =>
      cases hgb : dget b k with
      | some w =>
          have h2 := hb _ (dget_mem hgb)
          simp [hga] at h2
      | none => rfl

theorem dictEqb_of_ext {a b : Dict String} (hna : nodupKeys a)
    (hnb : nodupKeys b) (h : ∀ k, dget a k = dget b k) :
    dictEqb a b = true := by
  unfold dictEqb
  rw [Bool.and_eq_true]
  constructor
  · rw [List.all_eq_true]
    intro p hp
    have := mem_dget_of_nodup hna hp
    simp [← h p.1, this]
  · rw [List.all_eq_true]
    intro p hp
    have := mem_dget_of_nodup hnb hp
    simp [h p.1, this]

theorem setEq_refl (a : List String) : setEq a a = true := by
  unfold setEq
  rw [Bool.and_eq_true]
  constructor <;>
    · rw [List.all_eq_true]
      intro x hx
      simpa [List.elem_iff] using hx

theorem setEq_symm {a b : List String} (h : setEq a b = true) :
    setEq b a = true := by
  unfold setEq at h ⊢
  rw [Bool.and_eq_true] at h ⊢
  exact ⟨h.2, h.1⟩

/-! ### Shell-glob matching (`fnmatch.fnmatch`, POSIX case-sensitive)

The snapshot-rotation state filters snapshot names with Python's
`fnmatch.fnmatch(name, pattern)`: `*` matches any run of characters, `?` any
single character, `[seq]` a character class (`[!seq]` negated, `a-b` ranges,
a `]` in first position is literal) and an unterminated `[` is a literal. -/

/-- Scan a character-class body up to the closing `]`.
Returns the body and the remainder of the pattern, or `none` if unterminated. -/
def scanClass : List Char → Option (List Char × List Char)
  | [] => none
  | c :: cs =>
      if c = ']' then some ([], cs)
      else (scanClass cs).map (fun p => (c :: p.1, p.2))

/-- Split a class body whose first character may be a literal `]`. -/
def splitClass : List Char → Option (List Char × List Char)
  | [] => none
  | c :: cs =>
      if c = ']' then (scanClass cs).map (fun p => (']' :: p.1, p.2))
      else scanClass (c :: cs)

/-- Parse the part of a pattern following `[`: negation flag, class body and
the rest of the pattern. -/
def classParse : List Char → Option (Bool × List Char × List Char)
  | [] => none
  | c :: cs =>
      if c = '!' then (splitClass cs).map (fun p => (true, p.1, p.2))
      else (splitClass (c :: cs)).map (fun p => (false, p.1, p.2))

/-- Does a character belong to a class body (with `a-b` ranges)? -/
def inClass : List Char → Char → Bool
  | a :: '-' :: b :: rest, c => (a ≤ c && c ≤ b) || inClass rest c
  | a :: rest, c => (a == c) || inClass rest c
  | [], _ => false

theorem scanClass_length {l : List Char} {r : List Char × List Char}
    (h : scanClass l = some r) : r.2.length < l.length := by
  induction l generalizing r with
  | nil => simp [scanClass] at h
  | cons c cs ih =>
      unfold scanClass at h
      by_cases hc : c = ']'
      · rw [if_pos hc] at h
        cases h
        simp
      · rw [if_neg hc, Option.map_eq_some'] at h
        obtain ⟨p, hp, hr⟩ := h
        have := ih hp
        subst hr
        simp
        omega

theorem splitClass_length {l : List Char} {r : List Char × List Char}
    (h : splitClass l = some r) : r.2.length < l.length := by
  cases l with
  | nil => simp [splitClass] at h
  | cons c cs =>
      simp only [splitClass] at h
      by_cases hc : c = ']'
      · rw [if_pos hc, Option.map_eq_some'] at h
        obtain ⟨p, hp, hr⟩ := h
        have := scanClass_length hp
        subst hr
        simp
        omega
      · rw [if_neg hc] at h
        exact scanClass_length h

theorem classParse_length {ps : List Char} {r : Bool × List Char × List Char}
    (h : classParse ps = some r) : r.2.2.length < ps.length + 1 := by
  cases ps with
  | nil => simp [classParse] at h
  | cons c cs =>
      simp only [classParse] at h
      by_cases hc : c = '!'
      · rw [if_pos hc, Option.map_eq_some'] at h
        obtain ⟨p, hp, hr⟩ := h
        have := splitClass_length hp
        subst hr
        simp
        omega
      · rw [if_neg hc, Option.map_eq_some'] at h
        obtain ⟨p, hp, hr⟩ := h
        have h6 := splitClass_length hp
        subst hr
        simp at h6 ⊢
        omega

/-- Glob matching, fuel-indexed so that it is structurally recursive (and thus
kernel-computable).  Every recursive call strictly decreases
`pattern.length + subject.length` (for the class case because `classParse`
consumes at least the closing bracket, `classParse_length`), so a fuel of
`pattern.length + subject.length + 1` always reaches a proper answer;
`globMatchGo_congr` below proves the result is fuel-independent from there on. -/
def globMatchGo : Nat → List Char → List Char → Bool
  | 0, _, _ => false
  | _ + 1, [], s => s.isEmpty
  | fuel + 1, p :: ps, s =>
      if p = '*' then
        globMatchGo fuel ps s ||
          (match s with
           | [] => false
           | _ :: cs => globMatchGo fuel (p :: ps) cs)
      else if p = '?' then
        (match s with
         | [] => false
         | _ :: cs => globMatchGo fuel ps cs)
      else if p = '[' then
        (match classParse ps with
         | some (neg, body, rest) =>
             (match s with
              | [] => false
              | c :: cs =>
                  (if neg then !(inClass body c) else inClass body c) &&
                    globMatchGo fuel rest cs)
         | none =>
             (match s with
              | [] => false
              | c :: cs => (p == c) && globMatchGo fuel ps cs))
      else
        (match s with
         | [] => false
         | c :: cs => (p == c) && globMatchGo fuel ps cs)

/-- The fuel does not matter once it exceeds `p.length + s.length`. -/
theorem globMatchGo_congr (f : Nat) :
    ∀ (g : Nat) (p s : List Char), p.length + s.length < f →
      p.length + s.length < g → globMatchGo f p s = globMatchGo g p s := by
  induction f with
  | zero => omega
  | succ f ih =>
      intro g p s hf hg
      cases g with
      | zero => omega
      | succ g =>
          cases p with
          | nil => simp [globMatchGo]
          | cons p ps =>
              simp only [globMatchGo]
              by_cases h1 : p = '*'
              · simp only [if_pos h1]
                have e1 : globMatchGo f ps s = globMatchGo g ps s := by
                  apply ih <;> (simp at hf hg ⊢; omega)
                rw [e1]
                cases s with
                | nil => rfl
                | cons c cs =>
                    have e2 : globMatchGo f (p :: ps) cs = globMatchGo g (p :: ps) cs := by
                      apply ih <;> (simp at hf hg ⊢; omega)
                    simp only [e2]
              · simp only [if_neg h1]
                by_cases h2 : p = '?'
                · simp only [if_pos h2]
                  cases s with
                  | nil => rfl
                  | cons c cs =>
                      have e2 : globMatchGo f ps cs = globMatchGo g ps cs := by
                        apply ih <;> (simp at hf hg ⊢; omega)
                      simp only [e2]
                · simp only [if_neg h2]
                  by_cases h3 : p = '['
                  · simp only [if_pos h3]
                    cases hcp : classParse ps with
                    | some r =>
                        obtain ⟨neg, body, rest⟩ := r
                        have hlen := classParse_length hcp
                        simp at hlen
                        cases s with
                        | nil => rfl
                        | cons c cs =>
                            have e2 : globMatchGo f rest cs = globMatchGo g rest cs := by
                              apply ih <;> (simp at hf hg ⊢; omega)
                            simp only [e2]
                    | none =>
                        cases s with
                        | nil => rfl
                        | cons c cs =>
                            have e2 : globMatchGo f ps cs = globMatchGo g ps cs := by
                              apply ih <;> (simp at hf hg ⊢; omega)
                            simp only [e2]
                  · simp only [if_neg h3]
                    cases s with
                    | nil => rfl
                    | cons c cs =>
                        have e2 : globMatchGo f ps cs = globMatchGo g ps cs := by
                          apply ih <;> (simp at hf hg ⊢; omega)
                        simp only [e2]

/-- Glob matching: pattern characters against subject characters. -/
def globMatch (p s : List Char) : Bool :=
  globMatchGo (p.length + s.length + 1) p s

/-- `fnmatch.fnmatch(name, pattern)` (POSIX: case-sensitive). -/
def fnmatch (name pattern : String) : Bool :=
  globMatch pattern.data name.data

/-! ### Snapshots and the rotation policy (`instance_snapshots_rotated`)

A snapshot as returned by `incus.instance_snapshot_list(recursion=1)`: the
state reads `s.get("name", "")` and `s.get("created_at", "")`, both strings
(`created_at` is an ISO-8601 timestamp, whose string order is chronological
order). -/

structure Snapshot where
  name : String
  created_at : String
deriving DecidableEq, Repr

/-- The sort key relation used by
`matching_snapshots.sort(key=lambda s: s.get("created_at", ""))`. -/
def createdLE (a b : Snapshot) : Prop := a.created_at ≤ b.created_at

instance : DecidableRel createdLE := fun a b => by
  unfold createdLE; infer_instance

instance : IsTotal Snapshot createdLE := ⟨fun a b => le_total a.created_at b.created_at⟩

instance : IsTrans Snapshot createdLE := ⟨fun _ _ _ => le_trans⟩

/-- The deletion plan computed by `instance_snapshots_rotated`:
filter by pattern, stable-sort oldest-first by `created_at` (Python's
`list.sort` is stable; `List.insertionSort` by a total preorder is the stable
sort), slice the oldest `count - keep` for deletion. -/
structure RotationPlan where
  matching : List Snapshot
  sorted : List Snapshot
  to_delete : List Snapshot
  retained : List Snapshot

def rotationPlan (snaps : List Snapshot) (pattern : String) (keep : Nat) :
    RotationPlan :=
  let matching := snaps.filter fun s => fnmatch s.name pattern
  let sorted := List.insertionSort createdLE matching
  { matching := matching
    sorted := sorted
    to_delete := sorted.take (matching.length - keep)
    retained := sorted.drop (matching.length - keep) }

/-- The `changes` dict of the rotation state: either empty or
`deleted: old := names, new := None`. -/
inductive RotChanges where
  | noChanges
  | deleted (old : List String)
deriving DecidableEq, Repr

/-- The state return dict (`result` is `None` in test mode). -/
structure RotRet where
  result : Option Bool
  changes : RotChanges
  comment : String
deriving DecidableEq, Repr

/-- The deletion loop of `instance_snapshots_rotated`: attempt
`incus.instance_snapshot_delete` for every selected name, collecting the
successes and the failures (with their error strings).  `delRes n = none`
models a successful delete, `some e` a failure with error `e`. -/
def runDeletes (names : List String) (delRes : String → Option String) :
    List String × List (String × String) :=
  names.foldl
    (fun acc n =>
      match delRes n with
      | none => (acc.1 ++ [n], acc.2)
      | some e => (acc.1, acc.2 ++ [(n, e)]))
    ([], [])

/-- `instance_snapshots_rotated(instance, pattern, keep)` from the state
module.  `test` is `__opts__["test"]`; `instExists` and `listOk` model the
outcomes of the preliminary `instance_get` and `instance_snapshot_list`
calls; `snaps` is the listed snapshot set.  Returns the state `ret` dict and
the list of snapshot names for which a delete request was issued. -/
def instance_snapshots_rotated (test : Bool) (instExists listOk : Bool)
    (snaps : List Snapshot) (pattern : String) (keep : Nat)
    (delRes : String → Option String) : RotRet × List String :=
  if ¬instExists then
    ({ result := some false, changes := .noChanges,
       comment := "Instance does not exist" }, [])
  else if ¬listOk then
    ({ result := some false, changes := .noChanges,
       comment := "Failed to list snapshots" }, [])
  else
    let plan := rotationPlan snaps pattern keep
    if plan.matching.length ≤ keep then
      ({ result := some true, changes := .noChanges,
         comment := "Snapshot rotation not needed" }, [])
    else
      let to_delete_names := plan.to_delete.map Snapshot.name
      if test then
        ({ result := none, changes := .deleted to_delete_names,
           comment := "Would delete old snapshots" }, [])
      else
        let dr := runDeletes to_delete_names delRes
        let changes := if dr.1.isEmpty then RotChanges.noChanges
          else .deleted dr.1
        if dr.2.isEmpty then
          ({ result := some true, changes := changes,
             comment := "Deleted old snapshots" }, to_delete_names)
        else
          ({ result := some false, changes := changes,
             comment := "Failed to delete some snapshots" }, to_delete_names)

/-- Closed form of the deletion loop: every name is attempted, the successes
are kept in order, and each failure is recorded with its error. -/
theorem runDeletes_go (f : String → Option String) (names : List String) :
    ∀ (a : List String) (b : List (String × String)),
      names.foldl
        (fun acc n =>
          match f n with
          | none => (acc.1 ++ [n], acc.2)
          | some e => (acc.1, acc.2 ++ [(n, e)]))
        (a, b) =
      (a ++ names.filter (fun n => (f n).isNone),
       b ++ names.filterMap (fun n => (f n).map (fun e => (n, e)))) := by
  induction names with
  | nil => simp
  | cons n rest ih =>
      intro a b
      cases hf : f n with
      | none => simp [hf, ih]
      | some e => simp [hf, ih]

theorem runDeletes_spec (names : List String) (f : String → Option String) :
    runDeletes names f =
      (names.filter (fun n => (f n).isNone),
       names.filterMap (fun n => (f n).map (fun e => (n, e)))) := by
  unfold runDeletes
  simpa using runDeletes_go f names [] []

/-- Elements taken before position `n` of a sorted list are `≤` those after. -/
theorem sorted_take_le_drop {l : List Snapshot} (h : l.Sorted createdLE)
    (n : Nat) : ∀ a ∈ l.take n, ∀ b ∈ l.drop n, createdLE a b := by
  have hp : List.Pairwise createdLE (l.take n ++ l.drop n) := by
    rw [List.take_append_drop]; exact h
  exact (List.pairwise_append.mp hp).2.2

/-! ### Instances and the reconciliation engine

The live instance as fetched by `incus.instance_get` (the fields the engine
reads: `config`, `devices`, `profiles`; the API always returns them). -/

structure Instance where
  config : Dict String
  devices : Dict (Dict String)
  profiles : List String
deriving DecidableEq, Repr

/-- The desired specification passed to `incus.instance_present`.  Python
distinguishes falsy `config`/`devices` (`None` or `{}` both skip the block),
modelled by the empty dict, while `profiles` is compared against `None`
explicitly, hence an `Option`. -/
structure Spec where
  name : String
  source : Option String
  instance_type : String
  config : Dict String
  devices : Dict (Dict String)
  profiles : Option (List String)
  ephemeral : Bool
deriving DecidableEq, Repr

/-- One entry of `changes["config"]`: `{"old": ..., "new": ...}`. -/
structure Change where
  old : Option String
  new : String
deriving DecidableEq, Repr

/-- One entry of `changes["devices"]`. -/
structure DevChange where
  old : Option (Dict String)
  new : Dict String
deriving DecidableEq, Repr

/-- The `changes` dict computed by `instance_present`: a section is present
only when non-empty, so the empty record models `changes == {}`. -/
structure Changes where
  config : Dict Change
  profiles : Option (List String × List String)
  devices : Dict DevChange
deriving DecidableEq, Repr

def Changes.isEmpty (c : Changes) : Bool :=
  c.config.isEmpty && c.profiles.isNone && c.devices.isEmpty

/-- The config-diff loop of `instance_present` (on strings, `str(value)` is
the identity).  `acc` is the `config_changes` dict being built. -/
def configChangesGo (current : Dict String) :
    Dict String → Dict Change → Dict Change
  | [], acc => acc
  | (k, v) :: rest, acc =>
      configChangesGo current rest
        (if dget current k ≠ some v then dset acc k ⟨dget current k, v⟩ else acc)

def configChanges (current cfg : Dict String) : Dict Change :=
  configChangesGo current cfg []

/-- The device-diff loop of `instance_present`: a device changes when the
desired per-device dict is not (Python-)equal to the current one, where a
missing current device compares unequal to any dict. -/
def deviceChangesGo (currentDevs : Dict (Dict String)) :
    Dict (Dict String) → Dict DevChange → Dict DevChange
  | [], acc => acc
  | (d, conf) :: rest, acc =>
      deviceChangesGo currentDevs rest
        (if ¬ optDictEqb (dget currentDevs d) conf then
          dset acc d ⟨dget currentDevs d, conf⟩
        else acc)

def deviceChanges (currentDevs devs : Dict (Dict String)) : Dict DevChange :=
  deviceChangesGo currentDevs devs []

/-- The diff computation of `instance_present` for an existing instance
(`src/_states/incus.py:147-186`). -/
def computeChanges (inst : Instance) (S : Spec) : Changes :=
  { config := if S.config.isEmpty then [] else configChanges inst.config S.config
    profiles :=
      match S.profiles with
      | none => none
      | some p => if setEq inst.profiles p then none else some (inst.profiles, p)
    devices :=
      if S.devices.isEmpty then [] else deviceChanges inst.devices S.devices }

/-- The per-device deep merge of `incus.instance_update`
(`src/_modules/incus.py:537-545`): an existing device has the supplied
properties merged in, a new device is added as supplied. -/
def mergeDevicesGo : Dict (Dict String) → Dict (Dict String) → Dict (Dict String)
  | acc, [] => acc
  | acc, (d, conf) :: rest =>
      mergeDevicesGo
        (match dget acc d with
         | some cur => dset acc d (dupdate cur conf)
         | none => dset acc d conf)
        rest

def mergeDevices (base devs : Dict (Dict String)) : Dict (Dict String) :=
  mergeDevicesGo base devs

/-- The full-object `PUT` body built by `incus.instance_update`
(`src/_modules/incus.py:524-550`): read the current instance, merge `config`,
deep-merge `devices`, replace `profiles` when supplied. -/
def instance_update_body (inst : Instance) (config : Dict String)
    (devices : Dict (Dict String)) (profiles : Option (List String)) :
    Instance :=
  { config := if config.isEmpty then inst.config else dupdate inst.config config
    devices :=
      if devices.isEmpty then inst.devices else mergeDevices inst.devices devices
    profiles :=
      match profiles with
      | some p => p
      | none => inst.profiles }

/-- A mutating request issued to the control plane. -/
inductive Mutation where
  | create (payload : Spec)
  | put (name : String) (body : Instance)
  | delete (name : String)
deriving DecidableEq, Repr

/-- The `ret["changes"]` dict of `instance_present`: empty, the update diff,
or (for creation) `{"instance": {"old": None, "new": ...}}` — the test branch
reports the whole `new_desc`, the real branch reports just the name. -/
inductive RetChanges where
  | noChanges
  | updated (c : Changes)
  | createdFull (desc : Spec)
  | createdName (n : String)
deriving DecidableEq, Repr

/-- The state return dict (`result` is `None` in test mode). -/
structure StateRet where
  result : Option Bool
  changes : RetChanges
  comment : String
deriving DecidableEq, Repr

/-- `incus.instance_present` from the state module
(`src/_states/incus.py:102-253`).  `test` is `__opts__["test"]`; `live` the
result of the initial `instance_get` (`none` = not found); `backendOk`
whether the issued create/update succeeds.  Returns the state `ret` and the
mutating requests issued (the read-only `GET`s are not mutations). -/
def instance_present (test : Bool) (live : Option Instance) (S : Spec)
    (backendOk : Bool) : StateRet × List Mutation :=
  match live with
  | some inst =>
      let changes := computeChanges inst S
      if changes.isEmpty then
        ({ result := some true, changes := .noChanges,
           comment := "Instance already in desired state" }, [])
      else if test then
        ({ result := none, changes := .updated changes,
           comment := "Instance would be updated" }, [])
      else
        let body := instance_update_body inst S.config S.devices S.profiles
        if backendOk then
          ({ result := some true, changes := .updated changes,
             comment := "Instance updated" }, [.put S.name body])
        else
          ({ result := some false, changes := .noChanges,
             comment := "Failed to update instance" }, [.put S.name body])
  | none =>
      if test then
        ({ result := none, changes := .createdFull S,
           comment := "Instance would be created" }, [])
      else if backendOk then
        ({ result := some true, changes := .createdName S.name,
           comment := "Instance created" }, [.create S])
      else
        ({ result := some false, changes := .noChanges,
           comment := "Failed to create instance" }, [.create S])

/-- The modelled control plane stores exactly the body of a mutating request:
`PUT /instances/<name>` is a full-object replace, and a freshly created
instance carries the creation payload (fields the payload omits are empty). -/
def applyMutation (_live : Option Instance) (m : Mutation) : Option Instance :=
  match m with
  | .create S =>
      some { config := S.config, devices := S.devices,
             profiles := S.profiles.getD [] }
  | .put _ body => some body
  | .delete _ => none

/-- The live state after one real (non-test) `instance_present` run. -/
def liveAfterPresent (live : Option Instance) (S : Spec) : Option Instance :=
  ((instance_present false live S true).2).foldl applyMutation live

/-- Well-formedness: real Python dicts have no duplicate keys. -/
def wfDevices (devs : Dict (Dict String)) : Prop :=
  nodupKeys devs ∧ ∀ p ∈ devs, nodupKeys p.2

instance (devs : Dict (Dict String)) : Decidable (wfDevices devs) := by
  unfold wfDevices; infer_instance

def Instance.wf (i : Instance) : Prop :=
  nodupKeys i.config ∧ wfDevices i.devices

instance (i : Instance) : Decidable i.wf := by
  unfold Instance.wf; infer_instance

def Spec.wf (S : Spec) : Prop :=
  nodupKeys S.config ∧ wfDevices S.devices

instance (S : Spec) : Decidable S.wf := by
  unfold Spec.wf; infer_instance

/-- The property-key condition under which the full-equality device diff and
the merge-only device update agree: every desired device either does not
exist yet or its current property keys are a subset of the desired ones. -/
def devCompatible (live : Option Instance) (S : Spec) : Prop :=
  match live with
  | none => True
  | some inst =>
      ∀ p ∈ S.devices, ∀ cur, dget inst.devices p.1 = some cur →
        dkeys cur ⊆ dkeys p.2

instance (live : Option Instance) (S : Spec) : Decidable (devCompatible live S) := by
  unfold devCompatible
  cases live <;> infer_instance

/-! ### Lemmas about the diff and merge loops -/

theorem dictEqb_refl {a : Dict String} (hn : nodupKeys a) : dictEqb a a = true :=
  dictEqb_of_ext hn hn (fun _ => rfl)

/-- Merging `conf` over `cur` gives exactly `conf` (pointwise) when all of
`cur`'s keys are overwritten. -/
theorem dupdate_subset_ext {cur conf : Dict String} (hconf : nodupKeys conf)
    (hsub : dkeys cur ⊆ dkeys conf) (k : String) :
    dget (dupdate cur conf) k = dget conf k := by
  cases hc : dget conf k with
  | some v => exact dget_dupdate_mem cur hconf hc
  | none =>
      have hk : k ∉ dkeys conf := (dget_eq_none_iff conf k).mp hc
      rw [dget_dupdate_not_mem cur hk]
      exact (dget_eq_none_iff cur k).mpr (fun hmem => hk (hsub hmem))

theorem configChangesGo_not_mem (current : Dict String) {cfg : Dict String}
    (acc : Dict Change) {k : String} (h : k ∉ dkeys cfg) :
    dget (configChangesGo current cfg acc) k = dget acc k := by
  induction cfg generalizing acc with
  | nil => rfl
  | cons p rest ih =>
      obtain ⟨k0, v0⟩ := p
      have hne : k0 ≠ k := fun hk => h (by simp [dkeys, hk])
      have hrest : k ∉ dkeys rest := fun hk =>
        h (by simp [dkeys] at hk ⊢; right; exact hk)
      show dget (configChangesGo current rest _) k = dget acc k
      rw [ih _ hrest]
      by_cases hd : dget current k0 ≠ some v0
      · rw [if_pos hd, dget_dset_ne _ _ _ _ (fun hk => hne hk.symm)]
      · rw [if_neg hd]

theorem configChangesGo_mem (current : Dict String) {cfg : Dict String}
    (acc : Dict Change) {k : String} {v : String} (hn : nodupKeys cfg)
    (hmem : (k, v) ∈ cfg) :
    dget (configChangesGo current cfg acc) k =
      if dget current k = some v then dget acc k
      else some ⟨dget current k, v⟩ := by
  induction cfg generalizing acc with
  | nil => simp at hmem
  | cons p rest ih =>
      obtain ⟨k0, v0⟩ := p
      obtain ⟨hk0, hn'⟩ := nodupKeys_cons.mp hn
      rcases List.mem_cons.mp hmem with h1 | h1
      · cases h1
        show dget (configChangesGo current rest _) k = _
        rw [configChangesGo_not_mem current _ hk0]
        by_cases he : dget current k = some v
        · simp [he]
        · simp [he, dget_dset_self]
      · have hkmem : k ∈ dkeys rest := List.mem_map.mpr ⟨(k, v), h1, rfl⟩
        have h0 : k0 ≠ k := fun hh => hk0 (hh ▸ hkmem)
        show dget (configChangesGo current rest _) k = _
        rw [ih _ hn' h1]
        by_cases he : dget current k = some v
        · simp only [if_pos he]
          by_cases hd : dget current k0 ≠ some v0
          · rw [if_pos hd, dget_dset_ne _ _ _ _ (fun hk => h0 hk.symm)]
          · rw [if_neg hd]
        · simp only [if_neg he]

/-- If every desired config entry already matches, the diff loop adds nothing. -/
theorem configChangesGo_all_eq (current : Dict String) {cfg : Dict String}
    (acc : Dict Change) (h : ∀ p ∈ cfg, dget current p.1 = some p.2) :
    configChangesGo current cfg acc = acc := by
  induction cfg generalizing acc with
  | nil => rfl
  | cons p rest ih =>
      obtain ⟨k0, v0⟩ := p
      have h0 : dget current k0 = some v0 := h (k0, v0) (List.mem_cons_self _ _)
      show configChangesGo current rest _ = acc
      rw [if_neg (by simp [h0])]
      exact ih acc (fun q hq => h q (List.mem_cons_of_mem _ hq))

theorem deviceChangesGo_not_mem (currentDevs : Dict (Dict String))
    {devs : Dict (Dict String)} (acc : Dict DevChange) {d : String}
    (h : d ∉ dkeys devs) :
    dget (deviceChangesGo currentDevs devs acc) d = dget acc d := by
  induction devs generalizing acc with
  | nil => rfl
  | cons p rest ih =>
      obtain ⟨d0, conf0⟩ := p
      have hne : d0 ≠ d := fun hk => h (by simp [dkeys, hk])
      have hrest : d ∉ dkeys rest := fun hk =>
        h (by simp [dkeys] at hk ⊢; right; exact hk)
      show dget (deviceChangesGo currentDevs rest _) d = dget acc d
      rw [ih _ hrest]
      by_cases hd : ¬ optDictEqb (dget currentDevs d0) conf0
      · rw [if_pos hd, dget_dset_ne _ _ _ _ (fun hk => hne hk.symm)]
      · rw [if_neg hd]

theorem deviceChangesGo_mem (currentDevs : Dict (Dict String))
    {devs : Dict (Dict String)} (acc : Dict DevChange) {d : String}
    {conf : Dict String} (hn : nodupKeys devs) (hmem : (d, conf) ∈ devs) :
    dget (deviceChangesGo currentDevs devs acc) d =
      if optDictEqb (dget currentDevs d) conf then dget acc d
      else some ⟨dget currentDevs d, conf⟩ := by
  induction devs generalizing acc with
  | nil => simp at hmem
  | cons p rest ih =>
      obtain ⟨d0, conf0⟩ := p
      obtain ⟨hd0, hn'⟩ := nodupKeys_cons.mp hn
      rcases List.mem_cons.mp hmem with h1 | h1
      · cases h1
        show dget (deviceChangesGo currentDevs rest _) d = _
        rw [deviceChangesGo_not_mem currentDevs _ hd0]
        by_cases he : optDictEqb (dget currentDevs d) conf = true
        · simp [he]
        · simp [he, dget_dset_self]
      · have hkmem : d ∈ dkeys rest := List.mem_map.mpr ⟨(d, conf), h1, rfl⟩
        have h0 : d0 ≠ d := fun hh => hd0 (hh ▸ hkmem)
        show dget (deviceChangesGo currentDevs rest _) d = _
        rw [ih _ hn' h1]
        by_cases he : optDictEqb (dget currentDevs d) conf = true
        · simp only [if_pos he]
          by_cases hd : ¬ optDictEqb (dget currentDevs d0) conf0
          · rw [if_pos hd, dget_dset_ne _ _ _ _ (fun hk => h0 hk.symm)]
          · rw [if_neg hd]
        · simp only [if_neg he]

/-- If every desired device already compares equal, the device diff loop adds
nothing. -/
theorem deviceChangesGo_all_eq (currentDevs : Dict (Dict String))
    {devs : Dict (Dict String)} (acc : Dict DevChange)
    (h : ∀ p ∈ devs, optDictEqb (dget currentDevs p.1) p.2 = true) :
    deviceChangesGo currentDevs devs acc = acc := by
  induction devs generalizing acc with
  | nil => rfl
  | cons p rest ih =>
      obtain ⟨d0, conf0⟩ := p
      have h0 := h (d0, conf0) (List.mem_cons_self _ _)
      show deviceChangesGo currentDevs rest _ = acc
      rw [if_neg (by simp [h0])]
      exact ih acc (fun q hq => h q (List.mem_cons_of_mem _ hq))

theorem mergeDevicesGo_not_mem (acc : Dict (Dict String))
    {devs : Dict (Dict String)} {d : String} (h : d ∉ dkeys devs) :
    dget (mergeDevicesGo acc devs) d = dget acc d := by
  induction devs generalizing acc with
  | nil => rfl
  | cons p rest ih =>
      obtain ⟨d0, conf0⟩ := p
      have hne : d0 ≠ d := fun hk => h (by simp [dkeys, hk])
      have hrest : d ∉ dkeys rest := fun hk =>
        h (by simp [dkeys] at hk ⊢; right; exact hk)
      show dget (mergeDevicesGo _ rest) d = dget acc d
      rw [ih _ hrest]
      cases dget acc d0 <;>
        simp [dget_dset_ne _ _ _ _ (fun hk => hne hk.symm)]

theorem mergeDevicesGo_mem (acc : Dict (Dict String))
    {devs : Dict (Dict String)} {d : String} {conf : Dict String}
    (hn : nodupKeys devs) (hmem : (d, conf) ∈ devs) :
    dget (mergeDevicesGo acc devs) d =
      some (match dget acc d with
            | some cur => dupdate cur conf
            | none => conf) := by
  induction devs generalizing acc with
  | nil => simp at hmem
  | cons p rest ih =>
      obtain ⟨d0, conf0⟩ := p
      obtain ⟨hd0, hn'⟩ := nodupKeys_cons.mp hn
      rcases List.mem_cons.mp hmem with h1 | h1
      · cases h1
        show dget (mergeDevicesGo _ rest) d = _
        rw [mergeDevicesGo_not_mem _ hd0]
        cases hc : dget acc d <;> simp [hc, dget_dset_self]
      · have hkmem : d ∈ dkeys rest := List.mem_map.mpr ⟨(d, conf), h1, rfl⟩
        have h0 : d0 ≠ d := fun hh => hd0 (hh ▸ hkmem)
        show dget (mergeDevicesGo _ rest) d = _
        rw [ih _ hn' h1]
        cases dget acc d0 <;>
          simp [dget_dset_ne _ _ _ _ (fun hk => h0 hk.symm)]

theorem nodupKeys_mergeDevicesGo {acc : Dict (Dict String)}
    (hn : nodupKeys acc) (devs : Dict (Dict String)) :
    nodupKeys (mergeDevicesGo acc devs) := by
  induction devs generalizing acc with
  | nil => exact hn
  | cons p rest ih =>
      obtain ⟨d0, conf0⟩ := p
      show nodupKeys (mergeDevicesGo _ rest)
      cases dget acc d0 <;> exact ih (nodupKeys_dset hn _ _)

/-- An element of `dset d k v` is an element of `d` or the new binding. -/
theorem mem_dset {α : Type} {d : Dict α} {k : String} {v : α} {q : String × α}
    (h : q ∈ dset d k v) : q ∈ d ∨ q = (k, v) := by
  induction d with
  | nil =>
      simp [dset] at h
      right; exact h
  | cons p rest ih =>
      obtain ⟨k0, v0⟩ := p
      by_cases h0 : k0 = k
      · subst h0
        simp [dset] at h
        rcases h with h | h
        · right; simp [h]
        · left; exact List.mem_cons_of_mem _ h
      · simp [dset, h0] at h
        rcases h with h | h
        · left; simp [h]
        · rcases ih h with h | h
          · left; exact List.mem_cons_of_mem _ h
          · right; exact h

/-- Values stored by the merge loop are either merge results of live and
desired per-device dicts, untouched live dicts, or desired dicts; under
well-formedness they all have distinct keys. -/
theorem wf_value_mergeDevicesGo {acc devs : Dict (Dict String)}
    (ha : ∀ p ∈ acc, nodupKeys p.2) (hd : ∀ p ∈ devs, nodupKeys p.2)
    {d : String} {x : Dict String}
    (hx : dget (mergeDevicesGo acc devs) d = some x) :
    nodupKeys x := by
  induction devs generalizing acc with
  | nil => exact ha _ (dget_mem hx)
  | cons p rest ih =>
      obtain ⟨d0, conf0⟩ := p
      have hconf0 : nodupKeys conf0 := hd (d0, conf0) (List.mem_cons_self _ _)
      have hd' : ∀ p ∈ rest, nodupKeys p.2 :=
        fun q hq => hd q (List.mem_cons_of_mem _ hq)
      refine ih ?_ hd' (by exact hx)
      intro q hq
      cases hc : dget acc d0 with
      | some cur =>
          rw [hc] at hq
          rcases mem_dset hq with h | h
          · exact ha q h
          · subst h
            exact nodupKeys_dupdate (ha (d0, cur) (dget_mem hc)) conf0
      | none =>
          rw [hc] at hq
          rcases mem_dset hq with h | h
          · exact ha q h
          · subst h
            exact hconf0

/-- Well-formedness of an optional live instance. -/
def OptWf (live : Option Instance) : Prop :=
  match live with
  | none => True
  | some inst => inst.wf

instance (live : Option Instance) : Decidable (OptWf live) := by
  unfold OptWf; cases live <;> infer_instance

/-- The empty `changes` dict. -/
def noDiff : Changes := { config := [], profiles := none, devices := [] }

/-- The spec diffs as empty against the body that `instance_update` `PUT`s,
provided every desired device is new or its current keys are a subset of the
desired ones. -/
theorem computeChanges_update_body {inst : Instance} {S : Spec}
    (hI : inst.wf) (hS : S.wf) (hdev : devCompatible (some inst) S) :
    computeChanges (instance_update_body inst S.config S.devices S.profiles) S
      = noDiff := by
  have hSc : nodupKeys S.config := hS.1
  have hSdn : nodupKeys S.devices := hS.2.1
  have hSdi : ∀ p ∈ S.devices, nodupKeys p.2 := hS.2.2
  have hIdi : ∀ p ∈ inst.devices, nodupKeys p.2 := hI.2.2
  unfold computeChanges noDiff instance_update_body
  simp only [Changes.mk.injEq]
  refine ⟨?_, ?_, ?_⟩
  · by_cases hce : S.config.isEmpty
    · simp [hce]
    · simp only [if_neg hce]
      exact configChangesGo_all_eq _ []
        (fun p hp => dget_dupdate_mem _ hSc (mem_dget_of_nodup hSc hp))
  · cases hsp : S.profiles with
    | none => rfl
    | some p => simp [setEq_refl]
  · by_cases hde : S.devices.isEmpty
    · simp [hde]
    · simp only [if_neg hde]
      refine deviceChangesGo_all_eq _ [] ?_
      intro q hq
      obtain ⟨d, conf⟩ := q
      have hconf : nodupKeys conf := hSdi (d, conf) hq
      show optDictEqb (dget (mergeDevicesGo inst.devices S.devices) d) conf = true
      rw [mergeDevicesGo_mem inst.devices hSdn hq]
      cases hc : dget inst.devices d with
      | none => simpa [optDictEqb] using dictEqb_refl hconf
      | some cur =>
          have hsub : dkeys cur ⊆ dkeys conf := hdev (d, conf) hq cur hc
          have hext := dupdate_subset_ext hconf hsub
          have hnu : nodupKeys (dupdate cur conf) :=
            nodupKeys_dupdate (hIdi (d, cur) (dget_mem hc)) conf
          simpa [optDictEqb] using dictEqb_of_ext hnu hconf hext

/-- The spec diffs as empty against the instance created from its own payload. -/
theorem computeChanges_created {S : Spec} (hS : S.wf) :
    computeChanges
      { config := S.config, devices := S.devices,
        profiles := S.profiles.getD [] } S = noDiff := by
  have hSc : nodupKeys S.config := hS.1
  have hSdn : nodupKeys S.devices := hS.2.1
  have hSdi : ∀ p ∈ S.devices, nodupKeys p.2 := hS.2.2
  unfold computeChanges noDiff
  simp only [Changes.mk.injEq]
  refine ⟨?_, ?_, ?_⟩
  · by_cases hce : S.config.isEmpty
    · simp [hce]
    · simp only [if_neg hce]
      exact configChangesGo_all_eq _ [] (fun p hp => mem_dget_of_nodup hSc hp)
  · cases hsp : S.profiles with
    | none => rfl
    | some p => simp [hsp, setEq_refl]
  · by_cases hde : S.devices.isEmpty
    · simp [hde]
    · simp only [if_neg hde]
      refine deviceChangesGo_all_eq _ [] ?_
      intro q hq
      obtain ⟨d, conf⟩ := q
      show optDictEqb (dget S.devices d) conf = true
      rw [mem_dget_of_nodup hSdn hq]
      simpa [optDictEqb] using dictEqb_refl (hSdi (d, conf) hq)

theorem noDiff_isEmpty : noDiff.isEmpty = true := rfl

theorem liveAfterPresent_none (S : Spec) :
    liveAfterPresent none S =
      some { config := S.config, devices := S.devices,
             profiles := S.profiles.getD [] } := by
  simp [liveAfterPresent, instance_present, applyMutation]

theorem liveAfterPresent_noChange {inst : Instance} {S : Spec}
    (h : (computeChanges inst S).isEmpty = true) :
    liveAfterPresent (some inst) S = some inst := by
  simp [liveAfterPresent, instance_present, h]

theorem liveAfterPresent_update {inst : Instance} {S : Spec}
    (h : (computeChanges inst S).isEmpty = false) :
    liveAfterPresent (some inst) S =
      some (instance_update_body inst S.config S.devices S.profiles) := by
  simp [liveAfterPresent, instance_present, h, applyMutation]

/-! ### The API client: request, operation wait protocol, sync request

`IncusClient._request` (`src/_modules/incus.py:232-286`): one HTTP call with
`timeout=30`; any `requests.exceptions.RequestException` (connection/TLS
failure, `raise_for_status` on a non-2xx status, JSON decoding of the body)
is caught and turned into the structured dict
`{"error": str(e), "error_code": response.status_code or None}`; a 5xx
additionally triggers diagnostic logging, a side effect with no bearing on
the returned value. -/

/-- A decoded response body, keeping only the fields the client reads:
the envelope's `error_code`, `type` and `error`, the async `operation` URL,
and the operation metadata's `status_code` and `err`. A `none` field models a
key missing from the JSON object. -/
structure Response where
  errorCode : Option Int
  rtype : Option String
  error : Option String
  operation : Option String
  statusCode : Option Int
  opErr : Option String
deriving DecidableEq, Repr

/-- What the HTTP layer did for one request. -/
inductive HttpOutcome where
  | transportError (msg : String)
  | httpError (status : Nat) (msg : String)
  | badJson (msg : String)
  | ok (body : Response)
deriving DecidableEq, Repr

/-- The value `_request` returns: the parsed body, or the structured error
dict `{"error": ..., "error_code": ...}`. It never raises. -/
inductive ReqResult where
  | body (r : Response)
  | errDict (error : String) (error_code : Option Nat)
deriving DecidableEq, Repr

def IncusClient_request (o : HttpOutcome) : ReqResult :=
  match o with
  | .ok b => .body b
  | .transportError m => .errDict m none
  | .httpError status m => .errDict m (some status)
  | .badJson m => .errDict m none

/-- `result.get("error_code") != 0` (and, with default `""`,
`result.get("error_code", "") != 0`): both are `False` exactly when the key
is present with value `0`; a missing key compares unequal to `0`. -/
def errCodeNonzero (ec : Option Int) : Bool :=
  match ec with
  | some c => c != 0
  | none => true

/-- One classified iteration of `_wait_for_operation`'s loop body
(`src/_modules/incus.py:327-363`). -/
inductive StepRes where
  | sleepRepoll
  | success (r : Response)
  | reqError (e : String)
  | opFailure (e : String)
  | unexpected (c : Option Int)
deriving DecidableEq, Repr

/-- The loop body: reject a failed poll request
(`result.get("error", "Unknown error")`), re-poll on 100/101/103, return the
whole envelope on 200, the operation's `err` on 400, and an
unexpected-status failure otherwise. -/
def wait_step (r : Response) : StepRes :=
  if errCodeNonzero r.errorCode then
    .reqError (r.error.getD "Unknown error")
  else if r.statusCode = some 100 ∨ r.statusCode = some 101 ∨
      r.statusCode = some 103 then
    .sleepRepoll
  else if r.statusCode = some 200 then .success r
  else if r.statusCode = some 400 then .opFailure (r.opErr.getD "Operation failed")
  else .unexpected r.statusCode

/-- Result of `_wait_for_operation`.  `fuelOut` is an artifact of the fuel
encoding, proved unreachable for `interval ≥ 1` and enough fuel. -/
inductive WaitResult where
  | success (r : Response)
  | reqError (e : String)
  | opFailure (e : String)
  | unexpected (c : Option Int)
  | timeoutErr
  | invalidUrl (url : String)
  | fuelOut
deriving DecidableEq, Repr

/-- `_wait_for_operation`'s polling loop (`src/_modules/incus.py:319-363`)
with an explicit clock: `poll k` is the envelope returned by the `k`-th
operation `GET`; the wall-clock elapsed before iteration `k` is
`k * interval` (the loop sleeps `interval` between polls; the polls
themselves are instantaneous in the model).  The check
`time.time() - started > timeout` runs at the top of every iteration,
before polling. -/
def wait_go (poll : Nat → Response) (timeout interval : Nat) :
    Nat → Nat → WaitResult
  | 0, _ => .fuelOut
  | fuel + 1, k =>
      if k * interval > timeout then .timeoutErr
      else
        match wait_step (poll k) with
        | .sleepRepoll => wait_go poll timeout interval fuel (k + 1)
        | .success r => .success r
        | .reqError e => .reqError e
        | .opFailure e => .opFailure e
        | .unexpected c => .unexpected c

/-- One-step unfolding of the loop at positive fuel. -/
theorem wait_go_succ (poll : Nat → Response) (timeout interval fuel k : Nat) :
    wait_go poll timeout interval (fuel + 1) k =
      if k * interval > timeout then .timeoutErr
      else
        match wait_step (poll k) with
        | .sleepRepoll => wait_go poll timeout interval fuel (k + 1)
        | .success r => .success r
        | .reqError e => .reqError e
        | .opFailure e => .opFailure e
        | .unexpected c => .unexpected c := rfl

/-- Python `str.startswith`, on the underlying character lists. -/
def str_startswith (s pat : String) : Bool :=
  List.isPrefixOf pat.data s.data

/-- `IncusClient._wait_for_operation(operation_url, timeout=300, interval=1)`:
a reference that does not start with `/1.0/operations/` is an immediate
failure; otherwise poll until a terminal status or the timeout. -/
def wait_for_operation (poll : Nat → Response) (operation_url : String)
    (timeout interval : Nat) : WaitResult :=
  if ¬ str_startswith operation_url "/1.0/operations/" then .invalidUrl operation_url
  else wait_go poll timeout interval (timeout + 2) 0

/-- What `_sync_request` does after `_request` returns a parsed body. -/
inductive SyncOutcome where
  | unchanged (r : Response)
  | waited (op : String)
deriving DecidableEq, Repr

/-- The routing in `IncusClient._sync_request` (`src/_modules/incus.py:365-376`):
`if result.get('error_code', "") != 0: return result`; then wait on the
embedded operation only when `type == "async"` and `operation` is truthy
(`if op:` — a missing key and the empty string are both falsy). -/
def sync_request (r : Response) : SyncOutcome :=
  if errCodeNonzero r.errorCode then .unchanged r
  else if r.rtype == some "async" then
    match r.operation with
    | some op => if op == "" then .unchanged r else .waited op
    | none => .unchanged r
  else .unchanged r

/-! ### The raw read-modify-write of `instance_update` (exception behaviour) -/

/-- A raw instance dict as embedded in `instance_get`'s metadata: any key may
be missing (`instance_get` defaults absent `metadata` to `{}`). -/
structure RawInstance where
  config : Option (Dict String)
  devices : Option (Dict (Dict String))
  profiles : Option (List String)
deriving DecidableEq, Repr

/-- Python subscription `obj[key]`: raises `KeyError` when the key is absent. -/
def pyIndex {α : Type} (v : Option α) (key : String) : Except String α :=
  match v with
  | some x => .ok x
  | none => .error ("KeyError: " ++ key)

/-- `incus.instance_update`'s read-modify-write on the raw fetched dict
(`src/_modules/incus.py:524-550`): `instance_data['config'].update(config)`
and the device-merge loop's `instance_data['devices']` subscripts raise
`KeyError` when the live resource lacks those keys; `profiles` is a plain
assignment.  Returns the `PUT` body, or the raised exception. -/
def instance_update_raw (meta : RawInstance) (config : Dict String)
    (devices : Dict (Dict String)) (profiles : Option (List String)) :
    Except String RawInstance := do
  let m1 ←
    if config.isEmpty then pure meta
    else do
      let c ← pyIndex meta.config "config"
      pure { meta with config := some (dupdate c config) }
  let m2 ←
    if devices.isEmpty then pure m1
    else do
      let ds ← pyIndex m1.devices "devices"
      pure { m1 with devices := some (mergeDevices ds devices) }
  pure
    (match profiles with
     | some p => { m2 with profiles := some p }
     | none => m2)

/-! ### Lemmas about the wait loop -/

theorem wait_go_no_fuelOut (poll : Nat → Response) (timeout interval : Nat)
    (hi : 1 ≤ interval) :
    ∀ fuel k, k ≤ timeout + 1 → timeout + 2 ≤ fuel + k →
      wait_go poll timeout interval fuel k ≠ .fuelOut := by
  intro fuel
  induction fuel with
  | zero => intro k hk hf; omega
  | succ fuel ih =>
      intro k hk hf
      unfold wait_go
      by_cases ht : k * interval > timeout
      · simp [ht]
      · simp only [if_neg ht]
        have hki : k * 1 ≤ k * interval := Nat.mul_le_mul_left k hi
        rw [Nat.mul_one] at hki
        cases hs : wait_step (poll k) with
        | sleepRepoll => exact ih (k + 1) (by omega) (by omega)
        | success r => simp
        | reqError e => simp
        | opFailure e => simp
        | unexpected c => simp

theorem wait_go_all_nonterminal (poll : Nat → Response) (timeout interval : Nat)
    (hi : 1 ≤ interval)
    (h : ∀ j, j * interval ≤ timeout → wait_step (poll j) = .sleepRepoll) :
    ∀ fuel k, k ≤ timeout + 1 → timeout + 2 ≤ fuel + k →
      wait_go poll timeout interval fuel k = .timeoutErr := by
  intro fuel
  induction fuel with
  | zero => intro k hk hf; omega
  | succ fuel ih =>
      intro k hk hf
      unfold wait_go
      by_cases ht : k * interval > timeout
      · simp [ht]
      · simp only [if_neg ht]
        have hki : k * 1 ≤ k * interval := Nat.mul_le_mul_left k hi
        rw [Nat.mul_one] at hki
        rw [h k (by omega)]
        exact ih (k + 1) (by omega) (by omega)

theorem wait_go_success_observed (poll : Nat → Response) (timeout interval : Nat) :
    ∀ fuel k r, wait_go poll timeout interval fuel k = .success r →
      ∃ j, k ≤ j ∧ j * interval ≤ timeout ∧ wait_step (poll j) = .success r := by
  intro fuel
  induction fuel with
  | zero => intro k r h; simp [wait_go] at h
  | succ fuel ih =>
      intro k r h
      unfold wait_go at h
      by_cases ht : k * interval > timeout
      · simp [ht] at h
      · simp only [if_neg ht] at h
        cases hs : wait_step (poll k) with
        | sleepRepoll =>
            rw [hs] at h
            obtain ⟨j, hj1, hj2, hj3⟩ := ih (k + 1) r h
            exact ⟨j, by omega, hj2, hj3⟩
        | success r' =>
            rw [hs] at h
            simp at h
            exact ⟨k, le_refl k, by omega, by rw [hs, h]⟩
        | reqError e => rw [hs] at h; simp at h
        | opFailure e => rw [hs] at h; simp at h
        | unexpected c => rw [hs] at h; simp at h

/-! ### Server settings -/

/-- The server settings document (`GET ''`'s metadata): its `config` map and
the rest of the document, which `settings_replace` leaves untouched. -/
structure ServerSettings where
  config : Dict String
  otherFields : Dict String
deriving DecidableEq, Repr

/-- `incus.settings_replace` (`src/_modules/incus.py:3975-3991`): fetch the
current settings document, then `settings_data['config'] = config` — a
wholesale replacement of the `config` map — and `PUT` the document back. -/
def settings_replace_body (current : ServerSettings) (config : Dict String) :
    ServerSettings :=
  { current with config := config }

/-! ### Helpers for relating a reported diff to the applied transition -/

/-- Extensional equality of optional per-device dicts. -/
def odExt (a b : Option (Dict String)) : Prop :=
  match a, b with
  | none, none => True
  | some x, some y => ∀ k, dget x k = dget y k
  | _, _ => False

theorem odExt_refl (a : Option (Dict String)) : odExt a a := by
  cases a <;> simp [odExt]

theorem mem_dkeys {α : Type} {d : Dict α} {k : String} :
    k ∈ dkeys d ↔ ∃ v, (k, v) ∈ d := by
  unfold dkeys
  rw [List.mem_map]
  constructor
  · rintro ⟨⟨a, b⟩, hm, rfl⟩
    exact ⟨b, hm⟩
  · rintro ⟨v, hv⟩
    exact ⟨(k, v), hv, rfl⟩

/-- The reported diff `c` exactly describes the transition from `i` to `i'`:
a reported entry records the live value before (`old`) and the applied value
after (`new`), and everything unreported is observationally unchanged —
profiles up to the engine's own set-equality, per-device dicts up to
extensional dict equality. -/
def Realizes (i i' : Instance) (c : Changes) : Prop :=
  (∀ k ch, dget c.config k = some ch →
      dget i.config k = ch.old ∧ dget i'.config k = some ch.new) ∧
  (∀ k, dget c.config k = none → dget i'.config k = dget i.config k) ∧
  (match c.profiles with
   | some pr => pr.1 = i.profiles ∧ i'.profiles = pr.2
   | none => setEq i'.profiles i.profiles = true) ∧
  (∀ d dc, dget c.devices d = some dc →
      dc.old = dget i.devices d ∧ odExt (dget i'.devices d) (some dc.new)) ∧
  (∀ d, dget c.devices d = none → odExt (dget i'.devices d) (dget i.devices d))

/-- An empty diff trivially describes the identity transition. -/
theorem realizes_self {inst : Instance} {c : Changes}
    (hE : c.isEmpty = true) : Realizes inst inst c := by
  unfold Changes.isEmpty at hE
  rw [Bool.and_eq_true, Bool.and_eq_true] at hE
  have hc : c.config = [] := List.isEmpty_iff.mp hE.1.1
  have hp : c.profiles = none := Option.isNone_iff_eq_none.mp hE.1.2
  have hd : c.devices = [] := List.isEmpty_iff.mp hE.2
  refine ⟨?_, ?_, ?_, ?_, ?_⟩
  · intro k ch hch
    rw [hc] at hch
    simp [dget] at hch
  · intro k _
    rfl
  · rw [hp]
    exact setEq_refl _
  · intro d dc hdc
    rw [hd] at hdc
    simp [dget] at hdc
  · intro d _
    exact odExt_refl _

/-- The diff that `instance_present` reports describes exactly the transition
from the live instance to the body that the real run `PUT`s, under
well-formedness and the device key-subset condition. -/
theorem realizes_update_body {inst : Instance} {S : Spec}
    (hS : S.wf) (hdev : devCompatible (some inst) S) :
    Realizes inst (instance_update_body inst S.config S.devices S.profiles)
      (computeChanges inst S) := by
  have hSc : nodupKeys S.config := hS.1
  have hSdn : nodupKeys S.devices := hS.2.1
  have hSdi : ∀ p ∈ S.devices, nodupKeys p.2 := hS.2.2
  refine ⟨?_, ?_, ?_, ?_, ?_⟩
  · -- reported config entries
    intro k ch hch
    by_cases hce : S.config.isEmpty
    · rw [show (computeChanges inst S).config = [] by simp [computeChanges, hce]] at hch
      simp [dget] at hch
    · rw [show (computeChanges inst S).config =
          configChangesGo inst.config S.config [] by
            simp [computeChanges, hce, configChanges]] at hch
      by_cases hk : k ∈ dkeys S.config
      · obtain ⟨v, hv⟩ := mem_dkeys.mp hk
        rw [configChangesGo_mem inst.config [] hSc hv] at hch
        by_cases he : dget inst.config k = some v
        · rw [if_pos he] at hch
          simp [dget] at hch
        · rw [if_neg he] at hch
          simp at hch
          rw [← hch]
          refine ⟨rfl, ?_⟩
          show dget (instance_update_body inst S.config S.devices S.profiles).config k
            = some v
          rw [show (instance_update_body inst S.config S.devices S.profiles).config
            = dupdate inst.config S.config by simp [instance_update_body, hce]]
          exact dget_dupdate_mem _ hSc (mem_dget_of_nodup hSc hv)
      · rw [configChangesGo_not_mem inst.config [] hk] at hch
        simp [dget] at hch
  · -- unreported config keys are unchanged
    intro k hnone
    by_cases hce : S.config.isEmpty
    · rw [show (instance_update_body inst S.config S.devices S.profiles).config
        = inst.config by simp [instance_update_body, hce]]
    · rw [show (instance_update_body inst S.config S.devices S.profiles).config
        = dupdate inst.config S.config by simp [instance_update_body, hce]]
      rw [show (computeChanges inst S).config =
          configChangesGo inst.config S.config [] by
            simp [computeChanges, hce, configChanges]] at hnone
      by_cases hk : k ∈ dkeys S.config
      · obtain ⟨v, hv⟩ := mem_dkeys.mp hk
        rw [configChangesGo_mem inst.config [] hSc hv] at hnone
        by_cases he : dget inst.config k = some v
        · rw [dget_dupdate_mem _ hSc (mem_dget_of_nodup hSc hv), he]
        · rw [if_neg he] at hnone
          simp at hnone
      · exact dget_dupdate_not_mem _ hk
  · -- profiles
    cases hsp : S.profiles with
    | none =>
        simp only [computeChanges, hsp]
        rw [show (instance_update_body inst S.config S.devices none).profiles
          = inst.profiles from rfl]
        exact setEq_refl _
    | some p =>
        have hbp : (instance_update_body inst S.config S.devices (some p)).profiles
            = p := rfl
        by_cases hpe : setEq inst.profiles p = true
        · simp only [computeChanges, hsp, if_pos hpe]
          rw [hbp]
          exact setEq_symm hpe
        · simp only [computeChanges, hsp, if_neg hpe]
          refine ⟨by simp, by simpa using hbp⟩
  · -- reported device entries
    intro d dc hdc
    by_cases hde : S.devices.isEmpty
    · rw [show (computeChanges inst S).devices = [] by simp [computeChanges, hde]] at hdc
      simp [dget] at hdc
    · rw [show (computeChanges inst S).devices =
          deviceChangesGo inst.devices S.devices [] by
            simp [computeChanges, hde, deviceChanges]] at hdc
      have hbd : (instance_update_body inst S.config S.devices S.profiles).devices
          = mergeDevicesGo inst.devices S.devices := by
        simp [instance_update_body, hde, mergeDevices]
      by_cases hk : d ∈ dkeys S.devices
      · obtain ⟨conf, hconf⟩ := mem_dkeys.mp hk
        rw [deviceChangesGo_mem inst.devices [] hSdn hconf] at hdc
        by_cases he : optDictEqb (dget inst.devices d) conf = true
        · rw [if_pos he] at hdc
          simp [dget] at hdc
        · rw [if_neg he] at hdc
          simp at hdc
          rw [← hdc]
          refine ⟨rfl, ?_⟩
          rw [hbd, mergeDevicesGo_mem inst.devices hSdn hconf]
          cases hc : dget inst.devices d with
          | none => simp [odExt]
          | some cur =>
              have hsub := hdev (d, conf) hconf cur hc
              have hext := dupdate_subset_ext (hSdi (d, conf) hconf) hsub
              simpa [odExt] using hext
      · rw [deviceChangesGo_not_mem inst.devices [] hk] at hdc
        simp [dget] at hdc
  · -- unreported devices are observationally unchanged
    intro d hdnone
    by_cases hde : S.devices.isEmpty
    · rw [show (instance_update_body inst S.config S.devices S.profiles).devices
        = inst.devices by simp [instance_update_body, hde]]
      exact odExt_refl _
    · have hbd : (instance_update_body inst S.config S.devices S.profiles).devices
          = mergeDevicesGo inst.devices S.devices := by
        simp [instance_update_body, hde, mergeDevices]
      rw [show (computeChanges inst S).devices =
          deviceChangesGo inst.devices S.devices [] by
            simp [computeChanges, hde, deviceChanges]] at hdnone
      by_cases hk : d ∈ dkeys S.devices
      · obtain ⟨conf, hconf⟩ := mem_dkeys.mp hk
        have hconfN : nodupKeys conf := hSdi (d, conf) hconf
        rw [deviceChangesGo_mem inst.devices [] hSdn hconf] at hdnone
        by_cases he : optDictEqb (dget inst.devices d) conf = true
        · rw [hbd, mergeDevicesGo_mem inst.devices hSdn hconf]
          cases hc : dget inst.devices d with
          | none => simp [hc, optDictEqb] at he
          | some cur =>
              rw [hc] at he
              have hext0 := dictEqb_ext (by simpa [optDictEqb] using he)
              simp only [odExt]
              intro k
              cases hck : dget conf k with
              | some v =>
                  rw [dget_dupdate_mem _ hconfN hck, hext0 k, hck]
              | none =>
                  rw [dget_dupdate_not_mem _ ((dget_eq_none_iff conf k).mp hck)]
        · rw [if_neg he] at hdnone
          simp at hdnone
      · rw [deviceChangesGo_not_mem inst.devices [] hk] at hdnone
        rw [hbd, mergeDevicesGo_not_mem inst.devices hk]
        exact odExt_refl _

/-! ### The claims -/

/-- C3: for every polled envelope whose request-level `error_code` is `0`,
the wait protocol treats status codes 100, 101 and 103 as non-terminal — the
loop performs one sleep of the poll interval and re-polls at the next index —
returns the success envelope for 200, returns a failure carrying the
server-supplied `err` string for 400, and an unexpected-terminal failure for
any other status code. -/
theorem operation_state_machine (r : Response) (e : String)
    (hok : r.errorCode = some 0) :
    ((r.statusCode = some 100 ∨ r.statusCode = some 101 ∨
        r.statusCode = some 103) → wait_step r = .sleepRepoll) ∧
    (r.statusCode = some 200 → wait_step r = .success r) ∧
    (r.statusCode = some 400 → r.opErr = some e → wait_step r = .opFailure e) ∧
    (r.statusCode ≠ some 100 → r.statusCode ≠ some 101 →
      r.statusCode ≠ some 103 → r.statusCode ≠ some 200 →
      r.statusCode ≠ some 400 → wait_step r = .unexpected r.statusCode) ∧
    (∀ (poll : Nat → Response) (timeout interval fuel k : Nat), poll k = r →
      wait_step r = .sleepRepoll → ¬ k * interval > timeout →
      wait_go poll timeout interval (fuel + 1) k =
        wait_go poll timeout interval fuel (k + 1)) := by
  have hnz : errCodeNonzero r.errorCode = false := by
    simp [errCodeNonzero, hok]
  refine ⟨?_, ?_, ?_, ?_, ?_⟩
  · intro h
    simp [wait_step, hnz, h]
  · intro h
    simp [wait_step, hnz, h]
  · intro h he
    simp [wait_step, hnz, h, he]
  · intro h1 h2 h3 h4 h5
    simp [wait_step, hnz, h1, h2, h3, h4, h5]
  · intro poll timeout interval fuel k hp hstep ht
    rw [wait_go_succ, if_neg ht, hp, hstep]

theorem operation_state_machine_witness :
    ((Response.mk (some 0) (some "sync") none none (some 400) (some "boom")).errorCode
      = some 0) ∧
    ((((Response.mk (some 0) (some "sync") none none (some 400) (some "boom")).statusCode
          = some 100 ∨
        (Response.mk (some 0) (some "sync") none none (some 400) (some "boom")).statusCode
          = some 101 ∨
        (Response.mk (some 0) (some "sync") none none (some 400) (some "boom")).statusCode
          = some 103) →
      wait_step (Response.mk (some 0) (some "sync") none none (some 400) (some "boom"))
        = .sleepRepoll) ∧
    ((Response.mk (some 0) (some "sync") none none (some 400) (some "boom")).statusCode
        = some 200 →
      wait_step (Response.mk (some 0) (some "sync") none none (some 400) (some "boom"))
        = .success (Response.mk (some 0) (some "sync") none none (some 400) (some "boom"))) ∧
    ((Response.mk (some 0) (some "sync") none none (some 400) (some "boom")).statusCode
        = some 400 →
      (Response.mk (some 0) (some "sync") none none (some 400) (some "boom")).opErr
        = some "boom" →
      wait_step (Response.mk (some 0) (some "sync") none none (some 400) (some "boom"))
        = .opFailure "boom") ∧
    ((Response.mk (some 0) (some "sync") none none (some 400) (some "boom")).statusCode
        ≠ some 100 →
      (Response.mk (some 0) (some "sync") none none (some 400) (some "boom")).statusCode
        ≠ some 101 →
      (Response.mk (some 0) (some "sync") none none (some 400) (some "boom")).statusCode
        ≠ some 103 →
      (Response.mk (some 0) (some "sync") none none (some 400) (some "boom")).statusCode
        ≠ some 200 →
      (Response.mk (some 0) (some "sync") none none (some 400) (some "boom")).statusCode
        ≠ some 400 →
      wait_step (Response.mk (some 0) (some "sync") none none (some 400) (some "boom"))
        = .unexpected
          (Response.mk (some 0) (some "sync") none none (some 400) (some "boom")).statusCode) ∧
    (∀ (poll : Nat → Response) (timeout interval fuel k : Nat),
      poll k = Response.mk (some 0) (some "sync") none none (some 400) (some "boom") →
      wait_step (Response.mk (some 0) (some "sync") none none (some 400) (some "boom"))
        = .sleepRepoll → ¬ k * interval > timeout →
      wait_go poll timeout interval (fuel + 1) k =
        wait_go poll timeout interval fuel (k + 1))) :=
  ⟨by decide,
   operation_state_machine
     (Response.mk (some 0) (some "sync") none none (some 400) (some "boom"))
     "boom" (by decide)⟩

/-- C4: the wait loop measures a wall-clock timeout from first entry; for
every status sequence, if the elapsed time exceeds the timeout before a
terminal status is observed the loop stops with a timeout failure; a success
result can only arise from actually observing a 200 within the poll budget;
and the loop terminates under an advancing clock (`interval ≥ 1`): the fuel
bound `timeout + 2` is never exhausted. -/
theorem wait_timeout_never_false_success (poll : Nat → Response)
    (url : String) (timeout interval : Nat) (hi : 1 ≤ interval)
    (hurl : str_startswith url "/1.0/operations/" = true) :
    (wait_for_operation poll url timeout interval ≠ .fuelOut) ∧
    ((∀ j, j * interval ≤ timeout → wait_step (poll j) = .sleepRepoll) →
      wait_for_operation poll url timeout interval = .timeoutErr) ∧
    (∀ r, wait_for_operation poll url timeout interval = .success r →
      ∃ j, j * interval ≤ timeout ∧ wait_step (poll j) = .success r) := by
  have hw : wait_for_operation poll url timeout interval =
      wait_go poll timeout interval (timeout + 2) 0 := by
    simp [wait_for_operation, hurl]
  rw [hw]
  refine ⟨wait_go_no_fuelOut poll timeout interval hi (timeout + 2) 0
      (by omega) (by omega),
    fun h => wait_go_all_nonterminal poll timeout interval hi h (timeout + 2) 0
      (by omega) (by omega),
    fun r h => ?_⟩
  obtain ⟨j, _, hj2, hj3⟩ :=
    wait_go_success_observed poll timeout interval (timeout + 2) 0 r h
  exact ⟨j, hj2, hj3⟩

/-- A concrete poll trace for the C4 witness: 100, then 103, then 200. -/
def witnessTrace (k : Nat) : Response :=
  if k = 0 then Response.mk (some 0) none none none (some 100) none
  else if k = 1 then Response.mk (some 0) none none none (some 103) none
  else Response.mk (some 0) none none none (some 200) none

theorem wait_timeout_never_false_success_witness :
    (1 ≤ 1 ∧ str_startswith "/1.0/operations/abc" "/1.0/operations/" = true) ∧
    ((wait_for_operation witnessTrace "/1.0/operations/abc" 10 1 ≠ .fuelOut) ∧
     ((∀ j, j * 1 ≤ 10 → wait_step (witnessTrace j) = .sleepRepoll) →
       wait_for_operation witnessTrace "/1.0/operations/abc" 10 1 = .timeoutErr) ∧
     (∀ r, wait_for_operation witnessTrace "/1.0/operations/abc" 10 1 = .success r →
       ∃ j, j * 1 ≤ 10 ∧ wait_step (witnessTrace j) = .success r)) :=
  ⟨⟨by decide, by decide⟩,
   wait_timeout_never_false_success witnessTrace "/1.0/operations/abc" 10 1
     (by decide) (by decide)⟩

/-- C10: for every response dict with no `error_code` key, `_sync_request`
returns that response unchanged and never invokes the operation-wait
protocol, even if `type` is `"async"` and an operation reference is present:
the default `""` compares unequal to `0`, so a missing key takes the same
early return as a non-zero error code. -/
theorem sync_request_missing_error_code (r : Response)
    (h : r.errorCode = none) :
    sync_request r = .unchanged r ∧
    (∀ (s : Response) (c : Int), s.errorCode = some c → c ≠ 0 →
      sync_request s = .unchanged s) := by
  constructor
  · simp [sync_request, errCodeNonzero, h]
  · intro s c hs hc
    simp [sync_request, errCodeNonzero, hs, hc]

theorem sync_request_missing_error_code_witness :
    ((Response.mk none (some "async") none (some "/1.0/operations/x") none none).errorCode
      = none ∧
     (Response.mk none (some "async") none (some "/1.0/operations/x") none none).rtype
      = some "async" ∧
     (Response.mk none (some "async") none (some "/1.0/operations/x") none none).operation
      = some "/1.0/operations/x") ∧
    (sync_request (Response.mk none (some "async") none (some "/1.0/operations/x") none none)
      = .unchanged (Response.mk none (some "async") none (some "/1.0/operations/x") none none) ∧
     (∀ (s : Response) (c : Int), s.errorCode = some c → c ≠ 0 →
       sync_request s = .unchanged s)) :=
  ⟨by refine ⟨rfl, rfl, rfl⟩,
   sync_request_missing_error_code
     (Response.mk none (some "async") none (some "/1.0/operations/x") none none) rfl⟩

/-- C5: a configuration update is a merge: the map `PUT` by
`instance_update` takes every key of the desired map `D` to `D`'s value and
every other key to the current map's unchanged value (no current key is
dropped); only `settings_replace` substitutes the whole `config` map
wholesale. -/
theorem config_update_is_merge (inst : Instance) (cur : ServerSettings)
    (D : Dict String) (hD : nodupKeys D) (hne : D ≠ []) :
    (∀ k v, dget D k = some v →
      dget (instance_update_body inst D [] none).config k = some v) ∧
    (∀ k, k ∉ dkeys D →
      dget (instance_update_body inst D [] none).config k = dget inst.config k) ∧
    (settings_replace_body cur D).config = D := by
  have hbc : (instance_update_body inst D [] none).config =
      dupdate inst.config D := by
    simp [instance_update_body, List.isEmpty_iff, hne]
  refine ⟨?_, ?_, rfl⟩
  · intro k v h
    rw [hbc]
    exact dget_dupdate_mem _ hD h
  · intro k h
    rw [hbc]
    exact dget_dupdate_not_mem _ h

theorem config_update_is_merge_witness :
    (nodupKeys [("b", "3"), ("c", "4")] ∧ [("b", "3"), ("c", "4")] ≠ []) ∧
    ((∀ k v, dget [("b", "3"), ("c", "4")] k = some v →
      dget (instance_update_body
        (Instance.mk [("a", "1"), ("b", "2")] [] [])
        [("b", "3"), ("c", "4")] [] none).config k = some v) ∧
    (∀ k, k ∉ dkeys [("b", "3"), ("c", "4")] →
      dget (instance_update_body
        (Instance.mk [("a", "1"), ("b", "2")] [] [])
        [("b", "3"), ("c", "4")] [] none).config k =
      dget (Instance.mk [("a", "1"), ("b", "2")] [] []).config k) ∧
    (settings_replace_body (ServerSettings.mk [("x", "y")] [])
        [("b", "3"), ("c", "4")]).config = [("b", "3"), ("c", "4")]) :=
  ⟨⟨by decide, by decide⟩,
   config_update_is_merge (Instance.mk [("a", "1"), ("b", "2")] [] [])
     (ServerSettings.mk [("x", "y")] []) [("b", "3"), ("c", "4")]
     (by decide) (by decide)⟩

/-- C6: the claim says `instance_update(devices={d: {}})` removes device `d`
(the tombstone convention `volume_detached` relies on: the source comments
`Empty dict removes the device`).  The code instead merges the empty dict
into the existing device — a no-op — so the `PUT` body still carries device
`d` with its full original property map; the device is never detached.
Evaluating the code at the failing input: -/
theorem empty_device_map_merge_is_noop :
    (instance_update_body
      (Instance.mk [] [("d", [("a", "1"), ("b", "2")])] [])
      [] [("d", [])] none).devices = [("d", [("a", "1"), ("b", "2")])] := by
  decide

/-- C1 (amended): idempotence of `instance_present` holds provided every
device named in the desired spec either does not yet exist on the live
instance or has its current property keys contained in the desired per-device
map (plus the duplicate-free-keys well-formedness every real Python dict
enjoys; the control plane is modelled as storing exactly the create/`PUT`
body).  After one real converge, a second real run with the same spec is a
no-op: `result=True`, empty `changes`, and no mutating request issued. -/
theorem instance_present_idempotent_amended (live : Option Instance) (S : Spec)
    (hS : S.wf) (hl : OptWf live) (hdev : devCompatible live S) :
    instance_present false (liveAfterPresent live S) S true =
      ({ result := some true, changes := .noChanges,
         comment := "Instance already in desired state" }, []) := by
  cases live with
  | none =>
      rw [liveAfterPresent_none]
      have hc := computeChanges_created hS
      simp [instance_present, hc, noDiff, Changes.isEmpty]
  | some inst =>
      cases hE : (computeChanges inst S).isEmpty with
      | true =>
          rw [liveAfterPresent_noChange hE]
          simp [instance_present, hE]
      | false =>
          rw [liveAfterPresent_update hE]
          have hc := computeChanges_update_body hl hS hdev
          simp [instance_present, hc, noDiff, Changes.isEmpty]

theorem instance_present_idempotent_amended_witness :
    ((Spec.mk "web" (some "img") "container" [("limits.cpu", "2")]
        [("eth0", [("nictype", "bridged")])] (some ["default"]) false).wf ∧
     OptWf (some (Instance.mk [("limits.cpu", "1")] [("root", [("path", "/")])]
        ["default"])) ∧
     devCompatible
       (some (Instance.mk [("limits.cpu", "1")] [("root", [("path", "/")])]
          ["default"]))
       (Spec.mk "web" (some "img") "container" [("limits.cpu", "2")]
          [("eth0", [("nictype", "bridged")])] (some ["default"]) false)) ∧
    instance_present false
      (liveAfterPresent
        (some (Instance.mk [("limits.cpu", "1")] [("root", [("path", "/")])]
           ["default"]))
        (Spec.mk "web" (some "img") "container" [("limits.cpu", "2")]
           [("eth0", [("nictype", "bridged")])] (some ["default"]) false))
      (Spec.mk "web" (some "img") "container" [("limits.cpu", "2")]
         [("eth0", [("nictype", "bridged")])] (some ["default"]) false) true =
      ({ result := some true, changes := .noChanges,
         comment := "Instance already in desired state" }, []) :=
  ⟨by refine ⟨by decide, by decide, by decide⟩,
   instance_present_idempotent_amended
     (some (Instance.mk [("limits.cpu", "1")] [("root", [("path", "/")])]
        ["default"]))
     (Spec.mk "web" (some "img") "container" [("limits.cpu", "2")]
        [("eth0", [("nictype", "bridged")])] (some ["default"]) false)
     (by decide) (by decide) (by decide)⟩

/-- C1 fails as universally stated: with live device `d = {a:"1", b:"2"}` and
desired device `d = {a:"1"}`, the diff check compares the whole per-device
dicts for equality but the update only merges properties, so the second
(and every further) run still reports the same non-empty diff. -/
theorem instance_present_not_idempotent :
    (instance_present false
      (liveAfterPresent
        (some (Instance.mk [] [("d", [("a", "1"), ("b", "2")])] []))
        (Spec.mk "c" none "container" [] [("d", [("a", "1")])] none false))
      (Spec.mk "c" none "container" [] [("d", [("a", "1")])] none false)
      true).1.changes ≠ RetChanges.noChanges := by
  decide

/-- C2 (amended): a dry run (`test=True`) issues zero create, update or
delete requests, and — under the device key-subset condition that C1 also
needs — the diff it reports describes exactly the transition that a
subsequent real run on the same live state applies: reported entries record
the live value and the applied value, unreported state is observationally
unchanged, and a missing instance is reported as the full creation payload,
which is exactly what the real run creates. -/
theorem dry_run_agreement_amended (live : Option Instance) (S : Spec)
    (hS : S.wf) (hdev : devCompatible live S) :
    (∀ b, (instance_present true live S b).2 = []) ∧
    (match live with
     | none =>
         (instance_present true none S true).1.changes = .createdFull S ∧
         liveAfterPresent none S =
           some { config := S.config, devices := S.devices,
                  profiles := S.profiles.getD [] }
     | some inst =>
         ∃ i', liveAfterPresent (some inst) S = some i' ∧
           Realizes inst i' (computeChanges inst S) ∧
           (instance_present true (some inst) S true).1.changes =
             (if (computeChanges inst S).isEmpty then RetChanges.noChanges
              else .updated (computeChanges inst S))) := by
  constructor
  · intro b
    cases live with
    | none => simp [instance_present]
    | some inst =>
        by_cases hE : (computeChanges inst S).isEmpty <;>
          simp [instance_present, hE]
  · cases live with
    | none => exact ⟨rfl, liveAfterPresent_none S⟩
    | some inst =>
        cases hE : (computeChanges inst S).isEmpty with
        | true =>
            refine ⟨inst, liveAfterPresent_noChange hE, realizes_self hE, ?_⟩
            simp [instance_present, hE]
        | false =>
            refine ⟨_, liveAfterPresent_update hE,
              realizes_update_body hS hdev, ?_⟩
            simp [instance_present, hE]

theorem dry_run_agreement_amended_witness :
    ((Spec.mk "web" none "container" [("limits.memory", "4GB")] [] none false).wf ∧
     devCompatible
       (some (Instance.mk [("limits.cpu", "2")] [] []))
       (Spec.mk "web" none "container" [("limits.memory", "4GB")] [] none false)) ∧
    ((∀ b, (instance_present true
        (some (Instance.mk [("limits.cpu", "2")] [] []))
        (Spec.mk "web" none "container" [("limits.memory", "4GB")] [] none false)
        b).2 = []) ∧
     (match some (Instance.mk [("limits.cpu", "2")] [] []) with
      | none =>
          (instance_present true none
            (Spec.mk "web" none "container" [("limits.memory", "4GB")] [] none false)
            true).1.changes =
            .createdFull
              (Spec.mk "web" none "container" [("limits.memory", "4GB")] [] none false) ∧
          liveAfterPresent none
            (Spec.mk "web" none "container" [("limits.memory", "4GB")] [] none false) =
            some { config := [("limits.memory", "4GB")], devices := [],
                   profiles := [] }
      | some inst =>
          ∃ i', liveAfterPresent (some inst)
              (Spec.mk "web" none "container" [("limits.memory", "4GB")] [] none false)
              = some i' ∧
            Realizes inst i'
              (computeChanges inst
                (Spec.mk "web" none "container" [("limits.memory", "4GB")] [] none false)) ∧
            (instance_present true (some inst)
              (Spec.mk "web" none "container" [("limits.memory", "4GB")] [] none false)
              true).1.changes =
              (if (computeChanges inst
                  (Spec.mk "web" none "container" [("limits.memory", "4GB")] [] none false)).isEmpty
               then RetChanges.noChanges
               else .updated
                 (computeChanges inst
                   (Spec.mk "web" none "container" [("limits.memory", "4GB")] [] none false))))) :=
  ⟨⟨by decide, by decide⟩,
   dry_run_agreement_amended
     (some (Instance.mk [("limits.cpu", "2")] [] []))
     (Spec.mk "web" none "container" [("limits.memory", "4GB")] [] none false)
     (by decide) (by decide)⟩

/-- C2 fails as stated: with live device `d = {a:"1", b:"2"}` and desired
device `d = {a:"1"}`, the dry run reports a diff saying device `d` would
become exactly `{a:"1"}`, yet the subsequent real run on the same live state
changes nothing at all (the merge-only update re-produces the identical live
instance), so the reported diff is not the diff the real run applies. -/
theorem dry_run_diff_mismatch :
    (instance_present true
      (some (Instance.mk [] [("d", [("a", "1"), ("b", "2")])] []))
      (Spec.mk "c" none "container" [] [("d", [("a", "1")])] none false)
      true).1.changes =
      RetChanges.updated
        { config := [], profiles := none,
          devices := [("d",
            { old := some [("a", "1"), ("b", "2")], new := [("a", "1")] })] } ∧
    liveAfterPresent
      (some (Instance.mk [] [("d", [("a", "1"), ("b", "2")])] []))
      (Spec.mk "c" none "container" [] [("d", [("a", "1")])] none false) =
      some (Instance.mk [] [("d", [("a", "1"), ("b", "2")])] []) := by
  constructor
  · decide
  · decide

/-- C7: the rotation operation selects for deletion exactly the snapshots
whose names match the pattern under shell-glob semantics, stable-sorted by
creation timestamp ascending (ties keep list order), taking the oldest
`count - keep`; with `count ≤ keep` nothing is deleted; the retained matches
are the `keep` most-recently-created ones (every deleted snapshot is no newer
than every retained one, deleted and retained partition the matches, and at
most `keep` matches remain); and the state function issues delete requests
for exactly the selected names. -/
theorem rotation_deletion_set (snaps : List Snapshot) (pattern : String)
    (keep : Nat) (delRes : String → Option String) :
    (rotationPlan snaps pattern keep).matching =
      snaps.filter (fun s => fnmatch s.name pattern) ∧
    ((rotationPlan snaps pattern keep).matching.length ≤ keep →
      (rotationPlan snaps pattern keep).to_delete = []) ∧
    (keep < (rotationPlan snaps pattern keep).matching.length →
      (rotationPlan snaps pattern keep).to_delete.length =
        (rotationPlan snaps pattern keep).matching.length - keep) ∧
    ((rotationPlan snaps pattern keep).to_delete ++
        (rotationPlan snaps pattern keep).retained).Perm
      (rotationPlan snaps pattern keep).matching ∧
    (∀ a ∈ (rotationPlan snaps pattern keep).to_delete,
      ∀ b ∈ (rotationPlan snaps pattern keep).retained,
        a.created_at ≤ b.created_at) ∧
    (rotationPlan snaps pattern keep).retained.length =
      min (rotationPlan snaps pattern keep).matching.length keep ∧
    (rotationPlan snaps pattern keep).sorted.Sorted createdLE ∧
    (instance_snapshots_rotated false true true snaps pattern keep delRes).2 =
      (if (rotationPlan snaps pattern keep).matching.length ≤ keep then []
       else (rotationPlan snaps pattern keep).to_delete.map Snapshot.name) := by
  have hM : (rotationPlan snaps pattern keep).matching =
      snaps.filter (fun s => fnmatch s.name pattern) := rfl
  have hSo : (rotationPlan snaps pattern keep).sorted =
      List.insertionSort createdLE (rotationPlan snaps pattern keep).matching :=
    rfl
  have hT : (rotationPlan snaps pattern keep).to_delete =
      (rotationPlan snaps pattern keep).sorted.take
        ((rotationPlan snaps pattern keep).matching.length - keep) := rfl
  have hR : (rotationPlan snaps pattern keep).retained =
      (rotationPlan snaps pattern keep).sorted.drop
        ((rotationPlan snaps pattern keep).matching.length - keep) := rfl
  have hperm : (rotationPlan snaps pattern keep).sorted.Perm
      (rotationPlan snaps pattern keep).matching := by
    rw [hSo]
    exact List.perm_insertionSort _ _
  have hlen : (rotationPlan snaps pattern keep).sorted.length =
      (rotationPlan snaps pattern keep).matching.length := hperm.length_eq
  have hsorted : (rotationPlan snaps pattern keep).sorted.Sorted createdLE := by
    rw [hSo]
    exact List.sorted_insertionSort _ _
  refine ⟨hM, ?_, ?_, ?_, ?_, ?_, hsorted, ?_⟩
  · intro h
    rw [hT, Nat.sub_eq_zero_of_le h]
    exact List.take_zero _
  · intro h
    rw [hT, List.length_take, hlen]
    omega
  · rw [hT, hR, List.take_append_drop]
    exact hperm
  · intro a ha b hb
    exact sorted_take_le_drop hsorted _ a (hT ▸ ha) b (hR ▸ hb)
  · rw [hR, List.length_drop, hlen]
    omega
  · by_cases hk : (rotationPlan snaps pattern keep).matching.length ≤ keep <;>
      simp [instance_snapshots_rotated, hk] <;> split <;> rfl

/-- C8: during rotation a failed delete does not abort the remaining
deletions — a delete is attempted for every selected snapshot — the result
records exactly which deletions succeeded and which failed (with their error
strings), and the state result is success iff zero deletions failed. -/
theorem rotation_failure_aggregation (snaps : List Snapshot) (pattern : String)
    (keep : Nat) (delRes : String → Option String)
    (hrot : keep < (rotationPlan snaps pattern keep).matching.length) :
    (instance_snapshots_rotated false true true snaps pattern keep delRes).2 =
      (rotationPlan snaps pattern keep).to_delete.map Snapshot.name ∧
    runDeletes ((rotationPlan snaps pattern keep).to_delete.map Snapshot.name)
        delRes =
      (((rotationPlan snaps pattern keep).to_delete.map Snapshot.name).filter
          (fun n => (delRes n).isNone),
       ((rotationPlan snaps pattern keep).to_delete.map Snapshot.name).filterMap
          (fun n => (delRes n).map (fun e => (n, e)))) ∧
    ((instance_snapshots_rotated false true true snaps pattern keep
        delRes).1.result = some true ↔
      ((rotationPlan snaps pattern keep).to_delete.map Snapshot.name).filterMap
          (fun n => (delRes n).map (fun e => (n, e))) = []) := by
  have hk : ¬ (rotationPlan snaps pattern keep).matching.length ≤ keep := by
    omega
  have hrd := runDeletes_spec
    ((rotationPlan snaps pattern keep).to_delete.map Snapshot.name) delRes
  refine ⟨?_, hrd, ?_⟩
  · simp [instance_snapshots_rotated, hk]
    split <;> rfl
  · by_cases hf :
      (((rotationPlan snaps pattern keep).to_delete.map Snapshot.name).filterMap
        (fun n => (delRes n).map (fun e => (n, e)))) = [] <;>
      simp [instance_snapshots_rotated, hk, hrd, hf, List.isEmpty_iff] <;>
      (try (split <;> simp_all))

theorem rotation_failure_aggregation_witness :
    (1 < (rotationPlan
        [Snapshot.mk "daily-1" "t1", Snapshot.mk "daily-2" "t2",
         Snapshot.mk "daily-3" "t3"] "daily-*" 1).matching.length) ∧
    ((instance_snapshots_rotated false true true
        [Snapshot.mk "daily-1" "t1", Snapshot.mk "daily-2" "t2",
         Snapshot.mk "daily-3" "t3"] "daily-*" 1
        (fun n => if n = "daily-1" then some "boom" else none)).2 =
      (rotationPlan
        [Snapshot.mk "daily-1" "t1", Snapshot.mk "daily-2" "t2",
         Snapshot.mk "daily-3" "t3"] "daily-*" 1).to_delete.map Snapshot.name ∧
    runDeletes
        ((rotationPlan
          [Snapshot.mk "daily-1" "t1", Snapshot.mk "daily-2" "t2",
           Snapshot.mk "daily-3" "t3"] "daily-*" 1).to_delete.map Snapshot.name)
        (fun n => if n = "daily-1" then some "boom" else none) =
      (((rotationPlan
          [Snapshot.mk "daily-1" "t1", Snapshot.mk "daily-2" "t2",
           Snapshot.mk "daily-3" "t3"] "daily-*" 1).to_delete.map
            Snapshot.name).filter
          (fun n => ((fun n => if n = "daily-1" then some "boom" else none) n).isNone),
       ((rotationPlan
          [Snapshot.mk "daily-1" "t1", Snapshot.mk "daily-2" "t2",
           Snapshot.mk "daily-3" "t3"] "daily-*" 1).to_delete.map
            Snapshot.name).filterMap
          (fun n => ((fun n => if n = "daily-1" then some "boom" else none) n).map
            (fun e => (n, e)))) ∧
    ((instance_snapshots_rotated false true true
        [Snapshot.mk "daily-1" "t1", Snapshot.mk "daily-2" "t2",
         Snapshot.mk "daily-3" "t3"] "daily-*" 1
        (fun n => if n = "daily-1" then some "boom" else none)).1.result
        = some true ↔
      ((rotationPlan
        [Snapshot.mk "daily-1" "t1", Snapshot.mk "daily-2" "t2",
         Snapshot.mk "daily-3" "t3"] "daily-*" 1).to_delete.map
          Snapshot.name).filterMap
        (fun n => ((fun n => if n = "daily-1" then some "boom" else none) n).map
          (fun e => (n, e))) = [])) :=
  ⟨by decide,
   rotation_failure_aggregation
     [Snapshot.mk "daily-1" "t1", Snapshot.mk "daily-2" "t2",
      Snapshot.mk "daily-3" "t3"] "daily-*" 1
     (fun n => if n = "daily-1" then some "boom" else none) (by decide)⟩

/-- C9 (amended): the client turns every transport failure, non-2xx HTTP
status and undecodable body into the structured dict
`{"error": ..., "error_code": ...}` without raising, no modelled layer
retries (a converge run issues at most one mutating request), and
`instance_update` returns a structured `PUT` body for every live resource of
the documented shape (`config` and `devices` keys present); for a malformed
live-resource shape, however, `instance_update` raises `KeyError` instead of
returning a structured result (see the counterexample), so the claim's
"unexpected live-resource shape" case had to be dropped. -/
theorem structured_error_propagation_amended (o : HttpOutcome)
    (meta : RawInstance) (config : Dict String)
    (devices : Dict (Dict String)) (profiles : Option (List String))
    (hc : meta.config.isSome = true) (hd : meta.devices.isSome = true) :
    (∀ m, o = .transportError m → IncusClient_request o = .errDict m none) ∧
    (∀ s m, o = .httpError s m → IncusClient_request o = .errDict m (some s)) ∧
    (∀ m, o = .badJson m → IncusClient_request o = .errDict m none) ∧
    (∀ b, o = .ok b → IncusClient_request o = .body b) ∧
    (∃ body, instance_update_raw meta config devices profiles = .ok body) ∧
    (∀ (test : Bool) (live : Option Instance) (S : Spec) (ok : Bool),
      (instance_present test live S ok).2.length ≤ 1) := by
  obtain ⟨c, hc'⟩ := Option.isSome_iff_exists.mp hc
  obtain ⟨ds, hd'⟩ := Option.isSome_iff_exists.mp hd
  refine ⟨?_, ?_, ?_, ?_, ?_, ?_⟩
  · rintro m rfl; rfl
  · rintro s m rfl; rfl
  · rintro m rfl; rfl
  · rintro b rfl; rfl
  · unfold instance_update_raw
    by_cases h1 : config.isEmpty <;> by_cases h2 : devices.isEmpty <;>
      simp [h1, h2, pyIndex, hc', hd'] <;> cases profiles <;> exact ⟨_, rfl⟩
  · intro test live S ok
    cases live with
    | none =>
        by_cases ht : test <;> by_cases hok : ok <;>
          simp [instance_present, ht, hok]
    | some inst =>
        by_cases hE : (computeChanges inst S).isEmpty <;>
          by_cases ht : test <;> by_cases hok : ok <;>
            simp [instance_present, hE, ht, hok]

/-- C9 fails as universally stated for the "unexpected live-resource shape"
failure mode: when the fetched metadata lacks the `config` key (for example
an empty `metadata` object, which `instance_get` defaults to `{}`),
`instance_update` raises `KeyError` instead of returning a structured
result. -/
theorem instance_update_raises_on_malformed_shape :
    instance_update_raw (RawInstance.mk none none none)
      [("limits.cpu", "2")] [] none = .error "KeyError: config" := rfl

theorem structured_error_propagation_amended_witness :
    ((RawInstance.mk (some [("limits.cpu", "1")]) (some []) none).config.isSome
        = true ∧
     (RawInstance.mk (some [("limits.cpu", "1")]) (some []) none).devices.isSome
        = true) ∧
    ((∀ m, HttpOutcome.transportError "conn refused" = .transportError m →
      IncusClient_request (HttpOutcome.transportError "conn refused") =
        .errDict m none) ∧
    (∀ s m, HttpOutcome.transportError "conn refused" = .httpError s m →
      IncusClient_request (HttpOutcome.transportError "conn refused") =
        .errDict m (some s)) ∧
    (∀ m, HttpOutcome.transportError "conn refused" = .badJson m →
      IncusClient_request (HttpOutcome.transportError "conn refused") =
        .errDict m none) ∧
    (∀ b, HttpOutcome.transportError "conn refused" = .ok b →
      IncusClient_request (HttpOutcome.transportError "conn refused") = .body b) ∧
    (∃ body, instance_update_raw
        (RawInstance.mk (some [("limits.cpu", "1")]) (some []) none)
        [("limits.cpu", "2")] [] none = .ok body) ∧
    (∀ (test : Bool) (live : Option Instance) (S : Spec) (ok : Bool),
      (instance_present test live S ok).2.length ≤ 1)) :=
  ⟨⟨by decide, by decide⟩,
   structured_error_propagation_amended (HttpOutcome.transportError "conn refused")
     (RawInstance.mk (some [("limits.cpu", "1")]) (some []) none)
     [("limits.cpu", "2")] [] none (by decide) (by decide)⟩

end SaltIncus
